import Mathlib

/-!
Verification of the frame-resource pipelining and GPU-object caching subsystem
of the Illusion graphics engine, shallowly embedded in Lean 4.

GPU handles (buffers, semaphores, pools, pipelines) are modelled as natural
numbers; the Vulkan backend is modelled by explicit state passing.  Functions
translated from C++ sources keep their source names.  Components whose
implementation files are not part of the source tree (PipelineFactory,
RenderPass.cpp, DescriptorPool.cpp) are modelled from the specification and
carry a doc comment saying so.
-/

namespace Illusion

/-! ## BindingTypes (from src/Illusion/Graphics/BindingTypes.cpp) -/

/-- `DynamicUniformBufferBinding` as compared by its `operator==` in
BindingTypes.cpp: a buffer handle and a size. -/
structure DynamicUniformBufferBinding where
  mBuffer : Nat
  mSize : Nat
deriving DecidableEq

/-- `DynamicUniformBufferBinding::operator==` from BindingTypes.cpp:
compares `mBuffer` and `mSize`. -/
def DynamicUniformBufferBinding.eq
    (a b : DynamicUniformBufferBinding) : Bool :=
  a.mBuffer == b.mBuffer && a.mSize == b.mSize

/-- `DynamicUniformBufferBinding::operator!=` from BindingTypes.cpp. -/
def DynamicUniformBufferBinding.ne
    (a b : DynamicUniformBufferBinding) : Bool :=
  !(DynamicUniformBufferBinding.eq a b)

/-- `UniformBufferBinding` as compared by its `operator==` in
BindingTypes.cpp: a buffer handle, a size and an offset. -/
structure UniformBufferBinding where
  mBuffer : Nat
  mSize : Nat
  mOffset : Nat
deriving DecidableEq

/-- `UniformBufferBinding::operator==` from BindingTypes.cpp:
compares `mBuffer`, `mSize` and `mOffset`. -/
def UniformBufferBinding.eq (a b : UniformBufferBinding) : Bool :=
  a.mBuffer == b.mBuffer && a.mSize == b.mSize && a.mOffset == b.mOffset

/-- `UniformBufferBinding::operator!=` from BindingTypes.cpp. -/
def UniformBufferBinding.ne (a b : UniformBufferBinding) : Bool :=
  !(UniformBufferBinding.eq a b)

/-! ## Engine::getPhysicalDevice (from src/Illusion/Graphics/Engine.cpp) -/

/-- A physical device as seen by `Engine::getPhysicalDevice`: the three queue
family indices (negative = unsupported) and the supported extension names. -/
structure PhysicalDevice where
  graphicsFamily : Int
  computeFamily : Int
  presentFamily : Int
  extensions : List String
deriving DecidableEq

/-- The skip condition of the loop in `Engine::getPhysicalDevice`
(Engine.cpp lines 131-135): a device is skipped when
`(getGraphicsFamily() < 0 || !graphics) || (getPresentFamily() < 0 || !present)
 || (getComputeFamily() < 0 || !compute)`. -/
def queueSkip (graphics compute present : Bool)
    (d : PhysicalDevice) : Bool :=
  (decide (d.graphicsFamily < 0) || !graphics) ||
  (decide (d.presentFamily < 0) || !present) ||
  (decide (d.computeFamily < 0) || !compute)

/-- The extension check of `Engine::getPhysicalDevice` (Engine.cpp lines
138-146): the set of required extensions minus the available ones must be
empty, i.e. every required extension is available. -/
def extensionsSupported (required : List String)
    (d : PhysicalDevice) : Bool :=
  required.all (fun e => d.extensions.contains e)

/-- `Engine::getPhysicalDevice` from Engine.cpp: walk the physical devices in
order, skip those failing the queue or extension check, return the first
remaining one; throw `"Failed to find a suitable vulkan device!"` when none
is left. -/
def getPhysicalDevice (devices : List PhysicalDevice)
    (graphics compute present : Bool) (required : List String) :
    Except String PhysicalDevice :=
  match devices with
  | [] => .error "Failed to find a suitable vulkan device!"
  | d :: rest =>
    if queueSkip graphics compute present d then
      getPhysicalDevice rest graphics compute present required
    else if !extensionsSupported required d then
      getPhysicalDevice rest graphics compute present required
    else
      .ok d

/-! ## Engine::createInstance and the glfwInitialized flag
(from src/Illusion/Graphics/Engine.cpp) -/

/-- The process-wide state touched by `Engine::createInstance`: the hidden
global `glfwInitialized` flag (Engine.cpp line 34) and a count of how many
times `glfwInit` has been invoked so far. -/
structure GlfwState where
  glfwInitialized : Bool
  glfwInitCalls : Nat
deriving DecidableEq

/-- The GLFW guard at the top of `Engine::createInstance` (Engine.cpp lines
177-185): when the flag is unset, invoke `glfwInit`; on failure throw without
setting the flag, on success install the error callback and set the flag.
`env n` gives the result of the `(n+1)`-th `glfwInit` invocation of the
process.  Returns the new state and whether the guard completed. -/
def createInstanceGlfwGuard (env : Nat → Bool) (s : GlfwState) :
    GlfwState × Bool :=
  if s.glfwInitialized then
    (s, true)
  else
    let ok := env s.glfwInitCalls
    if ok then
      ({ glfwInitialized := true, glfwInitCalls := s.glfwInitCalls + 1 }, true)
    else
      ({ s with glfwInitCalls := s.glfwInitCalls + 1 }, false)

/-- `n` successive `Engine::createInstance` calls starting from state `s`
(each call runs the GLFW guard; a throwing call leaves the state as the guard
left it). -/
def runCreateInstances (env : Nat → Bool) (s : GlfwState) :
    Nat → GlfwState
  | 0 => s
  | n + 1 => runCreateInstances env (createInstanceGlfwGuard env s).1 n

/-- The initial process state: flag clear, `glfwInit` never invoked. -/
def glfwInitialState : GlfwState := { glfwInitialized := false, glfwInitCalls := 0 }

/-! ## Shader hot reload (from src/Illusion/Graphics/Shader.cpp)

Stages, sources and reflection resources are opaque; GPU-side shader-module
creation and per-module file reload are passed in as fallible environment
functions (`ShaderModule::create` / `ShaderModule::reload` live in files
outside the studied sources; only their use in Shader.cpp matters here). -/

/-- A compiled shader module: its reflection resources plus whether its
backing file changed on disk (`requiresReload()`). -/
structure ShaderModule where
  resources : List Nat
  needsReload : Bool
deriving DecidableEq

/-- The `Shader` state from Shader.hpp as used by Shader.cpp:
sources per stage, dirty flag, compiled modules and merged reflection. -/
structure Shader where
  mDirty : Bool
  mSources : List (Nat × Nat)
  mModules : List ShaderModule
  mReflection : List Nat
deriving DecidableEq

/-- Assoc-list update, modelling `mSources[stage] = source`. -/
def assocSet (k v : Nat) : List (Nat × Nat) → List (Nat × Nat)
  | [] => [(k, v)]
  | (k0, v0) :: rest =>
    if k0 == k then (k, v) :: rest else (k0, v0) :: assocSet k v rest

/-- `Shader::addModule` from Shader.cpp: marks the shader dirty and records
the stage's source. -/
def Shader.addModule (stage source : Nat) (s : Shader) : Shader :=
  { s with mDirty := true, mSources := assocSet stage source s.mSources }

/-- One iteration of the module-reload loop in `Shader::reload` (Shader.cpp
lines 100-108): a module requiring reload is reloaded; a thrown
`std::runtime_error` is caught, logged, and the module is kept as it was. -/
def reloadModuleStep (mr : ShaderModule → Except String ShaderModule)
    (m : ShaderModule) : ShaderModule × List String :=
  if m.needsReload then
    match mr m with
    | .ok m2 => (m2, [])
    | .error e => (m, ["Failed to compile shader: " ++ e])
  else (m, [])

/-- The module-creation loop of `Shader::reload` (Shader.cpp lines 115-118):
create a module per source in order; the first failure aborts the loop. -/
def compileAll (create : Nat → Nat → Except String ShaderModule) :
    List (Nat × Nat) → Except String (List ShaderModule)
  | [] => .ok []
  | (stage, src) :: rest =>
    match create stage src with
    | .error e => .error e
    | .ok m =>
      match compileAll create rest with
      | .error e => .error e
      | .ok ms => .ok (m :: ms)

/-- The reflection built in `Shader::reload` (Shader.cpp lines 120-124):
every resource of every freshly created module is added. -/
def buildReflection (modules : List ShaderModule) : List Nat :=
  (modules.map ShaderModule.resources).flatten

/-- `Shader::reload` from Shader.cpp: reload changed modules (absorbing
failures locally), then, when dirty, recompile all sources; on a compile
failure log the error, clear the dirty flag and leave modules and
reflection untouched.  Returns the new state and the error log. -/
def Shader.reload (mr : ShaderModule → Except String ShaderModule)
    (create : Nat → Nat → Except String ShaderModule) (s : Shader) :
    Shader × List String :=
  let stepped := s.mModules.map (reloadModuleStep mr)
  let s1 := { s with mModules := stepped.map Prod.fst }
  let logs1 := (stepped.map Prod.snd).flatten
  if s1.mDirty then
    match compileAll create s1.mSources with
    | .ok modules =>
      ({ s1 with
          mReflection := buildReflection modules
          mModules := modules
          mDirty := false }, logs1)
    | .error e =>
      ({ s1 with mDirty := false }, logs1 ++ ["Failed to compile shader: " ++ e])
  else (s1, logs1)

/-- `Shader::getModules` from Shader.cpp: reload, then return the modules. -/
def Shader.getModules (mr : ShaderModule → Except String ShaderModule)
    (create : Nat → Nat → Except String ShaderModule) (s : Shader) :
    List ShaderModule :=
  (Shader.reload mr create s).1.mModules

/-- `Shader::getReflection` from Shader.cpp: reload, then return the
reflection. -/
def Shader.getReflection (mr : ShaderModule → Except String ShaderModule)
    (create : Nat → Nat → Except String ShaderModule) (s : Shader) :
    List Nat :=
  (Shader.reload mr create s).1.mReflection

/-! ## One-time upload command buffers
(from src/Illusion/Graphics/Device.cpp) -/

/-- The graphics queue: command lists that have been submitted but not yet
executed, and those the GPU has finished. -/
structure GraphicsQueue where
  pending : List (List Nat)
  executed : List (List Nat)
deriving DecidableEq

/-- `vk::Queue::submit`: append one command list to the pending work. -/
def GraphicsQueue.submitWork (q : GraphicsQueue) (work : List Nat) :
    GraphicsQueue :=
  { q with pending := q.pending ++ [work] }

/-- `vk::Queue::waitIdle`: the host blocks until the queue has executed all
pending work. -/
def GraphicsQueue.waitIdle (q : GraphicsQueue) : GraphicsQueue :=
  { pending := [], executed := q.executed ++ q.pending }

/-- The state touched by the single-time-command helpers of Device.cpp:
the dedicated one-time command buffer (recording flag plus recorded
commands) and the graphics queue. -/
structure OneTimeCmdState where
  recording : Bool
  recorded : List Nat
  queue : GraphicsQueue
deriving DecidableEq

/-- `Device::beginSingleTimeGraphicsCommands` from Device.cpp (lines
491-495): resets the dedicated one-time command buffer and begins it. -/
def Device.beginSingleTimeGraphicsCommands (s : OneTimeCmdState) :
    OneTimeCmdState :=
  { s with recorded := [], recording := true }

/-- `Device::endSingleTimeGraphicsCommands` from Device.cpp (lines 499-508):
ends the one-time command buffer, submits it to the graphics queue, then
host-waits for the queue to become idle before returning. -/
def Device.endSingleTimeGraphicsCommands (s : OneTimeCmdState) :
    OneTimeCmdState :=
  let s1 := { s with recording := false }
  let q1 := GraphicsQueue.submitWork s1.queue s1.recorded
  { s1 with queue := GraphicsQueue.waitIdle q1 }

/-! ## GraphicsState and the pipeline cache -/

/-- `GraphicsState` with the fields named by the specification (§3): a value
type describing the full fixed-function and shader configuration.  Handles
and sub-descriptions are opaque naturals. -/
structure GraphicsState where
  shaderProgram : Nat
  primitiveTopology : Nat
  vertexInputBindings : List Nat
  vertexInputAttributes : List Nat
  viewports : List Nat
  scissors : List Nat
  blendAttachments : List Nat
  depthStencil : Nat
  dynamicBufferFlags : List Bool
deriving DecidableEq

/-- Field-wise equality of two `GraphicsState` values, comparing every field
listed in the specification. -/
def GraphicsState.fieldwiseEq (a b : GraphicsState) : Bool :=
  a.shaderProgram == b.shaderProgram &&
  a.primitiveTopology == b.primitiveTopology &&
  a.vertexInputBindings == b.vertexInputBindings &&
  a.vertexInputAttributes == b.vertexInputAttributes &&
  a.viewports == b.viewports &&
  a.scissors == b.scissors &&
  a.blendAttachments == b.blendAttachments &&
  a.depthStencil == b.depthStencil &&
  a.dynamicBufferFlags == b.dynamicBufferFlags

/-- The pipeline cache owned by a render pass: entries keyed by
(`GraphicsState`, sub-pass index) holding compiled pipeline handles, plus
the number of pipeline compilations performed so far. -/
structure PipelineFactory where
  entries : List ((GraphicsState × Nat) × Nat)
  compileCount : Nat
deriving DecidableEq

/-- Cache lookup by exact key. -/
def cacheLookup (key : GraphicsState × Nat) :
    List ((GraphicsState × Nat) × Nat) → Option Nat
  | [] => none
  | (k, h) :: rest => if k = key then some h else cacheLookup key rest

/-- Modelled from the spec: the implementation of
`RenderPass::createPipeline` (PipelineFactory.cpp / RenderPass.cpp) is not
in the source tree; only the declaration in RenderPass.hpp is.  Per §4.1,
`resolvePipeline(state, subPass)` returns the cached handle for that exact
combination if one exists; otherwise it compiles a new pipeline, inserts it
into the cache and returns it.  A compilation is modelled by drawing a
fresh handle from `compileCount`. -/
def RenderPass.createPipeline (cache : PipelineFactory)
    (graphicsState : GraphicsState) (subPass : Nat) :
    PipelineFactory × Nat :=
  match cacheLookup (graphicsState, subPass) cache.entries with
  | some h => (cache, h)
  | none =>
    let h := cache.compileCount
    ({ entries := ((graphicsState, subPass), h) :: cache.entries
       compileCount := cache.compileCount + 1 }, h)

/-- The empty pipeline cache a render pass starts with. -/
def emptyPipelineFactory : PipelineFactory := { entries := [], compileCount := 0 }

/-- A sequence of `createPipeline` requests against one cache. -/
def runCreatePipelines (reqs : List (GraphicsState × Nat))
    (cache : PipelineFactory) : PipelineFactory :=
  match reqs with
  | [] => cache
  | (st, sp) :: rest =>
    runCreatePipelines rest (RenderPass.createPipeline cache st sp).1

/-- The keys present in a pipeline cache. -/
def cacheKeys (cache : PipelineFactory) : List (GraphicsState × Nat) :=
  cache.entries.map Prod.fst

/-- A well-formed pipeline cache: no key occurs twice, and every compilation
performed is accounted for by exactly one entry. -/
def cacheWellFormed (cache : PipelineFactory) : Prop :=
  (cacheKeys cache).Nodup ∧ cache.compileCount = cache.entries.length

/-! ## DescriptorPool -/

/-- A backing-pool record from DescriptorPool.hpp: the `vk::DescriptorPool`
handle and the number of descriptor sets allocated from it. -/
structure PoolInfo where
  mPool : Nat
  mAllocationCount : Nat
deriving DecidableEq

/-- The `DescriptorPool` state from DescriptorPool.hpp: the per-pool cap
(`mMaxSetsPerPool = 64`), the backing-pool records, and a counter for fresh
backing-pool handles. -/
structure DescriptorPool where
  mMaxSetsPerPool : Nat
  mDescriptorPools : List PoolInfo
  nextPoolHandle : Nat
deriving DecidableEq

/-- Index of the last pool record whose allocation counter is below the
cap, if any. -/
def selectPool (cap : Nat) : List PoolInfo → Option Nat
  | [] => none
  | hd :: rest =>
    match selectPool cap rest with
    | some i => some (i + 1)
    | none => if hd.mAllocationCount < cap then some 0 else none

/-- Increment the allocation counter of the record at index `i`. -/
def bumpAt : List PoolInfo → Nat → List PoolInfo
  | [], _ => []
  | hd :: rest, 0 => { hd with mAllocationCount := hd.mAllocationCount + 1 } :: rest
  | hd :: rest, i + 1 => hd :: bumpAt rest i

/-- Modelled from the spec: the implementation of
`DescriptorPool::allocateDescriptorSet` (DescriptorPool.cpp) is not in the
source tree; only the declaration and members in DescriptorPool.hpp are.
Per §4.2, allocation selects the last pool record whose allocation counter
is below the per-pool cap; if none exists, a new backing pool (sized once
from the layout's reflection, held in `mPoolSizes`) is created and
appended.  Returns the new state and the backing-pool handle allocated
from. -/
def DescriptorPool.allocateDescriptorSet (p : DescriptorPool) :
    DescriptorPool × Nat :=
  match selectPool p.mMaxSetsPerPool p.mDescriptorPools with
  | some i =>
    ({ p with mDescriptorPools := bumpAt p.mDescriptorPools i },
     ((p.mDescriptorPools.get? i).map PoolInfo.mPool).getD 0)
  | none =>
    let handle := p.nextPoolHandle
    ({ p with
        mDescriptorPools :=
          p.mDescriptorPools ++ [{ mPool := handle, mAllocationCount := 1 }]
        nextPoolHandle := handle + 1 }, handle)

/-- A `DescriptorPool` as constructed by the DescriptorPool constructor:
cap 64 (DescriptorPool.hpp line 46), no backing pools yet. -/
def freshDescriptorPool : DescriptorPool :=
  { mMaxSetsPerPool := 64, mDescriptorPools := [], nextPoolHandle := 0 }

/-- `n` successive `allocateDescriptorSet` calls. -/
def allocN : Nat → DescriptorPool → DescriptorPool
  | 0, p => p
  | n + 1, p => allocN n (DescriptorPool.allocateDescriptorSet p).1

/-- The backing-pool handles of a descriptor pool, in creation order. -/
def poolHandles (p : DescriptorPool) : List Nat :=
  p.mDescriptorPools.map PoolInfo.mPool

/-- `b` extends `a`: everything in `a` is still there, in order. -/
def handlesExtend (a b : List Nat) : Prop := ∃ t, b = a ++ t

/-! ## FrameResourceRing -/

/-- The per-render-pass ring of frame resources (RenderPass.hpp:
`mCurrentRingBufferIndex`, `mFences`): the ring depth, the current index,
and per slot the absolute time at which the fence of the slot's pending
submission signals (`none` = no pending submission, fence already
signaled). -/
structure FrameResourceRing where
  depth : Nat
  current : Nat
  fenceSignalTime : List (Option Nat)
deriving DecidableEq

/-- Modelled from the spec: the render loop advancing
`mCurrentRingBufferIndex` (RenderPass.cpp) is not in the source tree; only
the members in RenderPass.hpp are.  Per §4.3, `acquireNext` advances the
ring index modulo the ring depth and host-waits on that slot's fence
before returning.  `now` is the current time; the result is `none` while
the wait blocks, and on return the slot's fence has been consumed
(reset). -/
def FrameResourceRing.acquireNext (r : FrameResourceRing) (now : Nat) :
    Option (FrameResourceRing × Nat) :=
  let i := (r.current + 1) % r.depth
  match r.fenceSignalTime.getD i none with
  | none =>
    some ({ r with current := i, fenceSignalTime := r.fenceSignalTime.set i none }, i)
  | some t =>
    if t ≤ now then
      some ({ r with current := i, fenceSignalTime := r.fenceSignalTime.set i none }, i)
    else
      none

/-- Modelled from the spec (§4.3 `submit`): submitting the current slot's
command buffer attaches the slot's fence, which will signal at
`finishTime`. -/
def FrameResourceRing.submitSlot (r : FrameResourceRing) (finishTime : Nat) :
    FrameResourceRing :=
  { r with fenceSignalTime := r.fenceSignalTime.set r.current (some finishTime) }

/-- A chain of successive acquisitions at the given times; `none` as soon
as one of them blocks. -/
def acquireSeq (r : FrameResourceRing) :
    List Nat → Option (FrameResourceRing × List Nat)
  | [] => some (r, [])
  | now :: rest =>
    (FrameResourceRing.acquireNext r now).bind fun p =>
      (acquireSeq p.1 rest).map fun q => (q.1, p.2 :: q.2)

/-! ## Render-pass graph wiring (executeBefore / executeAfter) -/

/-- The synchronization members of a render pass (RenderPass.hpp:
`mWaitSemaphores`, `mSignalSemaphore`): semaphores are opaque handles. -/
structure RenderPassSync where
  mWaitSemaphores : List Nat
  mSignalSemaphore : Nat
deriving DecidableEq

/-- Modelled from the spec: the bodies of `RenderPass::executeAfter` /
`executeBefore` (RenderPass.cpp) are not in the source tree; only the
declarations in RenderPass.hpp are.  Per §4.3, `this.executeAfter(other)`
appends `other`'s signal semaphore to `this` pass's wait-list; it performs
no cycle detection and no host wait. -/
def RenderPass.executeAfter (self other : RenderPassSync) : RenderPassSync :=
  { self with
      mWaitSemaphores := self.mWaitSemaphores ++ [other.mSignalSemaphore] }

/-- Modelled from the spec (§4.3): `a.executeBefore(b)` wires `b` to wait
on `a`'s signal semaphore, i.e. it is `b.executeAfter(a)`; the updated `b`
is returned. -/
def RenderPass.executeBefore (self other : RenderPassSync) : RenderPassSync :=
  RenderPass.executeAfter other self

/-! ## Lazy render-pass rebuild (addAttachment / init) -/

/-- The configuration members of a render pass (RenderPass.hpp:
`mFrameBufferAttachmentFormats`, `mAttachmentsDirty`, `mExtent`), plus a
count of how many times the native render-pass object and framebuffer
attachments have been (re)built. -/
structure RenderPassCfg where
  mFrameBufferAttachmentFormats : List Nat
  mAttachmentsDirty : Bool
  mExtent : Nat × Nat
  buildCount : Nat
deriving DecidableEq

/-- Modelled from the spec: the body of `RenderPass::addAttachment`
(RenderPass.cpp) is not in the source tree; only the declaration and the
`mAttachmentsDirty` member in RenderPass.hpp are.  Per §4.3, adding an
attachment records its format and only marks the pass dirty; nothing is
rebuilt eagerly. -/
def RenderPass.addAttachment (r : RenderPassCfg) (format : Nat) :
    RenderPassCfg :=
  { r with
      mFrameBufferAttachmentFormats := r.mFrameBufferAttachmentFormats ++ [format]
      mAttachmentsDirty := true }

/-- Modelled from the spec (§4.3): an extent change marks the pass dirty,
nothing is rebuilt eagerly. -/
def RenderPass.setExtent (r : RenderPassCfg) (extent : Nat × Nat) :
    RenderPassCfg :=
  { r with mExtent := extent, mAttachmentsDirty := true }

/-- Modelled from the spec: the body of `RenderPass::init` (RenderPass.cpp)
is not in the source tree.  Per §4.3, `init()` rebuilds the native
render-pass object and framebuffer attachments only when the pass is
dirty, and clears the dirty flag, batching all preceding configuration
calls into one rebuild. -/
def RenderPass.init (r : RenderPassCfg) : RenderPassCfg :=
  if r.mAttachmentsDirty then
    { r with mAttachmentsDirty := false, buildCount := r.buildCount + 1 }
  else r

/-- A sequence of `addAttachment` calls. -/
def addAttachmentList (r : RenderPassCfg) : List Nat → RenderPassCfg
  | [] => r
  | f :: fs => addAttachmentList (RenderPass.addAttachment r f) fs

/-! ### A concrete depth-2 backpressure scenario for the frame ring -/

/-- A freshly initialized ring of depth 2: no slot has pending work. -/
def ringScenario0 : FrameResourceRing :=
  { depth := 2, current := 1, fenceSignalTime := [none, none] }

/-- After the first acquisition (slot 0). -/
def ringScenario1 : FrameResourceRing :=
  { depth := 2, current := 0, fenceSignalTime := [none, none] }

/-- After submitting frame 1 on slot 0; its fence will signal at time 10. -/
def ringScenario1s : FrameResourceRing :=
  { depth := 2, current := 0, fenceSignalTime := [some 10, none] }

/-- After the second acquisition (slot 1). -/
def ringScenario2 : FrameResourceRing :=
  { depth := 2, current := 1, fenceSignalTime := [some 10, none] }

/-- After submitting frame 2 on slot 1; its fence will signal at time 20. -/
def ringScenario2s : FrameResourceRing :=
  { depth := 2, current := 1, fenceSignalTime := [some 10, some 20] }

/-! ## Helper lemmas -/

/-- A successful `getPhysicalDevice` picked a device that passed both the
queue check and the extension check. -/
theorem getPhysicalDevice_ok (devices : List PhysicalDevice)
    (g c p : Bool) (req : List String) (d : PhysicalDevice)
    (h : getPhysicalDevice devices g c p req = .ok d) :
    queueSkip g c p d = false ∧ extensionsSupported req d = true := by
  induction devices with
  | nil => simp [getPhysicalDevice] at h
  | cons d0 rest ih =>
    cases hq : queueSkip g c p d0 with
    | true =>
      simp only [getPhysicalDevice, hq, if_true] at h
      exact ih h
    | false =>
      cases he : extensionsSupported req d0 with
      | false =>
        simp only [getPhysicalDevice, hq, Bool.false_eq_true, if_false, he,
          Bool.not_false, if_true] at h
        exact ih h
      | true =>
        simp only [getPhysicalDevice, hq, Bool.false_eq_true, if_false, he,
          Bool.not_true, Except.ok.injEq] at h
        subst h
        exact ⟨hq, he⟩

/-- A device passing the queue check forces all three request flags to be
set and all three queue families to be supported. -/
theorem queueSkip_false_iff (g c p : Bool) (d : PhysicalDevice)
    (h : queueSkip g c p d = false) :
    g = true ∧ c = true ∧ p = true ∧
    0 ≤ d.graphicsFamily ∧ 0 ≤ d.computeFamily ∧ 0 ≤ d.presentFamily := by
  simp only [queueSkip, Bool.or_eq_false_iff, Bool.not_eq_false',
    decide_eq_false_iff_not, Int.not_lt] at h
  refine ⟨?_, ?_, ?_, ?_, ?_, ?_⟩ <;> tauto

/-- If any of the three request flags is false, every device is skipped. -/
theorem queueSkip_of_flag_false (g c p : Bool) (d : PhysicalDevice)
    (h : g = false ∨ c = false ∨ p = false) :
    queueSkip g c p d = true := by
  rcases h with h | h | h <;> subst h <;> simp [queueSkip]

/-- Once the `glfwInitialized` flag is set, the guard does nothing. -/
theorem createInstanceGlfwGuard_flagged (env : Nat → Bool) (s : GlfwState)
    (h : s.glfwInitialized = true) :
    createInstanceGlfwGuard env s = (s, true) := by
  simp [createInstanceGlfwGuard, h]

/-- Any number of `createInstance` calls leaves a flagged state alone. -/
theorem runCreateInstances_flagged (env : Nat → Bool) (s : GlfwState)
    (h : s.glfwInitialized = true) :
    ∀ n, runCreateInstances env s n = s := by
  intro n
  induction n with
  | zero => rfl
  | succ n ih =>
    rw [runCreateInstances, createInstanceGlfwGuard_flagged env s h]
    exact ih

/-! ## Claims -/

/-- Claim C10: equality on `DynamicUniformBufferBinding` is decided solely
by the buffer and size fields — `operator==` returns true iff `mBuffer`
and `mSize` agree — whereas `UniformBufferBinding::operator==`
additionally requires `mOffset` to agree (and can therefore distinguish
values agreeing on buffer and size). -/
theorem claim_C10 :
    (∀ a b : DynamicUniformBufferBinding,
        DynamicUniformBufferBinding.eq a b = true ↔
          a.mBuffer = b.mBuffer ∧ a.mSize = b.mSize) ∧
    (∀ a b : UniformBufferBinding,
        UniformBufferBinding.eq a b = true ↔
          a.mBuffer = b.mBuffer ∧ a.mSize = b.mSize ∧ a.mOffset = b.mOffset) ∧
    (∃ a b : UniformBufferBinding,
        a.mBuffer = b.mBuffer ∧ a.mSize = b.mSize ∧
          UniformBufferBinding.eq a b = false) := by
  refine ⟨?_, ?_, ⟨⟨0, 0, 0⟩, ⟨0, 0, 1⟩, rfl, rfl, rfl⟩⟩
  · intro a b
    simp [DynamicUniformBufferBinding.eq]
  · intro a b
    simp [UniformBufferBinding.eq, and_assoc]

/-- Closed instance of claim C10: two dynamic bindings with equal buffer
and size compare equal. -/
theorem claim_C10_witness :
    DynamicUniformBufferBinding.eq ⟨1, 2⟩ ⟨1, 2⟩ = true :=
  (claim_C10.1 ⟨1, 2⟩ ⟨1, 2⟩).mpr ⟨rfl, rfl⟩

/-- Claim C9: `Engine::getPhysicalDevice` returns a device only when all
three request flags are true and the device supports all three queue
families plus the requested extensions; whenever at least one flag is
false it throws `"Failed to find a suitable vulkan device!"`, whatever
devices exist. -/
theorem claim_C9 :
    (∀ (devices : List PhysicalDevice) (g c p : Bool) (req : List String)
        (d : PhysicalDevice),
        getPhysicalDevice devices g c p req = .ok d →
          g = true ∧ c = true ∧ p = true ∧
          0 ≤ d.graphicsFamily ∧ 0 ≤ d.computeFamily ∧ 0 ≤ d.presentFamily ∧
          extensionsSupported req d = true) ∧
    (∀ (devices : List PhysicalDevice) (g c p : Bool) (req : List String),
        g = false ∨ c = false ∨ p = false →
          getPhysicalDevice devices g c p req =
            .error "Failed to find a suitable vulkan device!") := by
  constructor
  · intro devices g c p req d h
    obtain ⟨hq, he⟩ := getPhysicalDevice_ok devices g c p req d h
    obtain ⟨h1, h2, h3, h4, h5, h6⟩ := queueSkip_false_iff g c p d hq
    exact ⟨h1, h2, h3, h4, h5, h6, he⟩
  · intro devices g c p req hflag
    induction devices with
    | nil => rfl
    | cons d0 rest ih =>
      simp only [getPhysicalDevice, queueSkip_of_flag_false g c p d0 hflag,
        if_true]
      exact ih

/-- Closed instance of claim C9: with a fully capable device available but
the compute flag false, `getPhysicalDevice` still throws. -/
theorem claim_C9_witness :
    getPhysicalDevice
        [{ graphicsFamily := 0, computeFamily := 1, presentFamily := 2,
           extensions := [] }] true false true [] =
      .error "Failed to find a suitable vulkan device!" :=
  claim_C9.2 _ true false true [] (Or.inr (Or.inl rfl))

/-- Counterexample to claim C8 as stated: when the first `glfwInit`
invocation fails, `Engine::createInstance` throws without setting the
hidden flag, so a second construction invokes `glfwInit` again — two
invocations in one process. -/
theorem claim_C8_counterexample :
    ¬ (runCreateInstances (fun _ => false) glfwInitialState 2).glfwInitCalls ≤ 1 := by
  decide

/-- Claim C8 (amended): once the `glfwInitialized` flag is set it is never
cleared and `glfwInit` is never invoked again; consequently, provided
every `glfwInit` invocation succeeds, any number of `createInstance`
calls invokes `glfwInit` at most once.  (When an invocation fails, the
constructor throws without setting the flag and a later construction
retries `glfwInit`.) -/
theorem claim_C8 :
    (∀ (env : Nat → Bool) (s : GlfwState), s.glfwInitialized = true →
        createInstanceGlfwGuard env s = (s, true)) ∧
    (∀ (env : Nat → Bool) (s : GlfwState), s.glfwInitialized = true →
        (createInstanceGlfwGuard env s).1.glfwInitialized = true) ∧
    (∀ (env : Nat → Bool) (n : Nat), (∀ k, env k = true) →
        (runCreateInstances env glfwInitialState n).glfwInitCalls ≤ 1) := by
  refine ⟨createInstanceGlfwGuard_flagged, ?_, ?_⟩
  · intro env s h
    rw [createInstanceGlfwGuard_flagged env s h]
    exact h
  · intro env n henv
    cases n with
    | zero => exact Nat.zero_le 1
    | succ n =>
      rw [runCreateInstances]
      have hguard : (createInstanceGlfwGuard env glfwInitialState).1 =
          { glfwInitialized := true, glfwInitCalls := 1 } := by
        simp [createInstanceGlfwGuard, glfwInitialState, henv 0]
      rw [hguard, runCreateInstances_flagged env _ rfl]

/-- Closed instance of claim C8: with an always-succeeding `glfwInit`,
three `createInstance` calls invoke `glfwInit` at most once. -/
theorem claim_C8_witness :
    (runCreateInstances (fun _ => true) glfwInitialState 3).glfwInitCalls ≤ 1 :=
  claim_C8.2.2 (fun _ => true) 3 (fun _ => rfl)

/-- Claim C7: `beginSingleTimeGraphicsCommands` resets and begins the
dedicated one-time command buffer; `endSingleTimeGraphicsCommands` ends
it, submits it to the graphics queue and host-waits for the queue to
become idle, so on return the queue has no pending work and the recorded
commands have been executed. -/
theorem claim_C7 :
    ∀ s : OneTimeCmdState,
      (Device.beginSingleTimeGraphicsCommands s).recording = true ∧
      (Device.beginSingleTimeGraphicsCommands s).recorded = [] ∧
      (Device.beginSingleTimeGraphicsCommands s).queue = s.queue ∧
      (Device.endSingleTimeGraphicsCommands s).recording = false ∧
      (Device.endSingleTimeGraphicsCommands s).queue.pending = [] ∧
      (Device.endSingleTimeGraphicsCommands s).queue.executed =
        s.queue.executed ++ s.queue.pending ++ [s.recorded] ∧
      s.recorded ∈ (Device.endSingleTimeGraphicsCommands s).queue.executed := by
  intro s
  refine ⟨rfl, rfl, rfl, rfl, rfl, ?_, ?_⟩
  · simp [Device.endSingleTimeGraphicsCommands, GraphicsQueue.submitWork,
      GraphicsQueue.waitIdle]
  · simp [Device.endSingleTimeGraphicsCommands, GraphicsQueue.submitWork,
      GraphicsQueue.waitIdle]

/-- When every module that requires a reload fails to reload, the
module-reload loop keeps every module as it was. -/
theorem reloadModules_fixed (mr : ShaderModule → Except String ShaderModule)
    (ms : List ShaderModule)
    (h : ∀ m ∈ ms, m.needsReload = true → ∃ e, mr m = Except.error e) :
    (ms.map (reloadModuleStep mr)).map Prod.fst = ms := by
  induction ms with
  | nil => rfl
  | cons m rest ih =>
    simp only [List.map_cons, List.cons.injEq]
    constructor
    · cases hm : m.needsReload with
      | false => simp [reloadModuleStep, hm]
      | true =>
        obtain ⟨e, he⟩ := h m (List.mem_cons_self m rest) hm
        simp [reloadModuleStep, hm, he]
    · exact ih (fun x hx => h x (List.mem_cons_of_mem m hx))

/-- Claim C6: if recompilation of a shader's sources fails during
`Shader::reload` (and any pending per-module hot reloads fail as well),
the errors are logged and absorbed locally: the previously compiled
modules and reflection are unchanged and remain what
`getModules`/`getReflection` return. -/
theorem claim_C6 :
    ∀ (mr : ShaderModule → Except String ShaderModule)
      (create : Nat → Nat → Except String ShaderModule) (s : Shader),
      (∀ m ∈ s.mModules, m.needsReload = true → ∃ e, mr m = Except.error e) →
      s.mDirty = true →
      (∃ e, compileAll create s.mSources = Except.error e) →
      Shader.getModules mr create s = s.mModules ∧
      Shader.getReflection mr create s = s.mReflection ∧
      (Shader.reload mr create s).1.mDirty = false ∧
      (Shader.reload mr create s).2 ≠ [] := by
  intro mr create s hmr hd hcomp
  obtain ⟨e, he⟩ := hcomp
  have hfix := reloadModules_fixed mr s.mModules hmr
  have hrel : Shader.reload mr create s =
      ({ s with mDirty := false },
       ((s.mModules.map (reloadModuleStep mr)).map Prod.snd).flatten ++
         ["Failed to compile shader: " ++ e]) := by
    simp only [Shader.reload, hfix, hd, if_true, he]
  refine ⟨?_, ?_, ?_, ?_⟩
  · simp [Shader.getModules, hrel]
  · simp [Shader.getReflection, hrel]
  · simp [hrel]
  · simp [hrel]

/-- Closed instance of claim C6: a dirty shader with one stale module
whose reload fails and whose recompilation fails keeps its module list. -/
theorem claim_C6_witness :
    Shader.getModules (fun _ => Except.error "io")
        (fun _ _ => Except.error "syntax")
        { mDirty := true, mSources := [(0, 0)],
          mModules := [{ resources := [7], needsReload := true }],
          mReflection := [7] } =
      [{ resources := [7], needsReload := true }] :=
  (claim_C6 (fun _ => Except.error "io") (fun _ _ => Except.error "syntax")
    { mDirty := true, mSources := [(0, 0)],
      mModules := [{ resources := [7], needsReload := true }],
      mReflection := [7] }
    (fun _ _ _ => ⟨"io", rfl⟩) rfl ⟨"syntax", rfl⟩).1

/-- `addAttachment` never rebuilds: the build count is untouched by any
sequence of attachment additions. -/
theorem addAttachmentList_buildCount :
    ∀ (fs : List Nat) (r : RenderPassCfg),
      (addAttachmentList r fs).buildCount = r.buildCount := by
  intro fs
  induction fs with
  | nil => intro r; rfl
  | cons f fs ih =>
    intro r
    rw [addAttachmentList, ih]
    rfl

/-- A dirty pass stays dirty under further attachment additions. -/
theorem addAttachmentList_dirty_mono :
    ∀ (fs : List Nat) (r : RenderPassCfg), r.mAttachmentsDirty = true →
      (addAttachmentList r fs).mAttachmentsDirty = true := by
  intro fs
  induction fs with
  | nil => intro r h; exact h
  | cons f fs ih =>
    intro r _
    rw [addAttachmentList]
    exact ih _ rfl

/-- At least one attachment addition leaves the pass dirty. -/
theorem addAttachmentList_dirty :
    ∀ (fs : List Nat) (r : RenderPassCfg), fs ≠ [] →
      (addAttachmentList r fs).mAttachmentsDirty = true := by
  intro fs r h
  cases fs with
  | nil => exact absurd rfl h
  | cons f fs =>
    rw [addAttachmentList]
    exact addAttachmentList_dirty_mono fs _ rfl

/-- Claim C5: `addAttachment` and extent changes only set the dirty flag
(no rebuild); the native render pass and framebuffer attachments are
rebuilt lazily by the next `init()`, exactly once regardless of how many
configuration calls preceded it, and a clean pass is never rebuilt. -/
theorem claim_C5 :
    (∀ (r : RenderPassCfg) (f : Nat),
        (RenderPass.addAttachment r f).buildCount = r.buildCount ∧
        (RenderPass.addAttachment r f).mAttachmentsDirty = true) ∧
    (∀ (r : RenderPassCfg) (e : Nat × Nat),
        (RenderPass.setExtent r e).buildCount = r.buildCount ∧
        (RenderPass.setExtent r e).mAttachmentsDirty = true) ∧
    (∀ (r : RenderPassCfg) (fs : List Nat), fs ≠ [] →
        (RenderPass.init (addAttachmentList r fs)).buildCount =
          r.buildCount + 1 ∧
        (RenderPass.init (addAttachmentList r fs)).mAttachmentsDirty = false) ∧
    (∀ r : RenderPassCfg, r.mAttachmentsDirty = false →
        RenderPass.init r = r) ∧
    (∀ r : RenderPassCfg, RenderPass.init (RenderPass.init r) =
        RenderPass.init r) := by
  refine ⟨fun r f => ⟨rfl, rfl⟩, fun r e => ⟨rfl, rfl⟩, ?_, ?_, ?_⟩
  · intro r fs hfs
    have hdirty := addAttachmentList_dirty fs r hfs
    have hcount := addAttachmentList_buildCount fs r
    constructor
    · rw [RenderPass.init, if_pos hdirty]
      simpa using hcount
    · rw [RenderPass.init, if_pos hdirty]
  · intro r h
    rw [RenderPass.init, if_neg (by simp [h])]
  · intro r
    cases h : r.mAttachmentsDirty with
    | false => simp [RenderPass.init, h]
    | true => simp [RenderPass.init, h]

/-- Closed instance of claim C5: two `addAttachment` calls on a clean pass
followed by one `init()` build exactly once. -/
theorem claim_C5_witness :
    (RenderPass.init (addAttachmentList
        { mFrameBufferAttachmentFormats := [], mAttachmentsDirty := false,
          mExtent := (100, 100), buildCount := 0 } [1, 2])).buildCount = 0 + 1 :=
  (claim_C5.2.2.1
    { mFrameBufferAttachmentFormats := [], mAttachmentsDirty := false,
      mExtent := (100, 100), buildCount := 0 } [1, 2]
    (by decide)).1

/-- Claim C4: `A.executeBefore(B)` (equivalently `B.executeAfter(A)`)
appends A's signal semaphore to B's wait-semaphore list, so B's wait list
contains A's signal semaphore afterwards; the wiring performs no cycle
detection — mutually wiring two passes is accepted and leaves each
waiting on the other — and touches nothing but the wait list (in
particular it performs no host wait). -/
theorem claim_C4 :
    ∀ a b : RenderPassSync,
      (RenderPass.executeBefore a b).mWaitSemaphores =
        b.mWaitSemaphores ++ [a.mSignalSemaphore] ∧
      a.mSignalSemaphore ∈ (RenderPass.executeBefore a b).mWaitSemaphores ∧
      RenderPass.executeBefore a b = RenderPass.executeAfter b a ∧
      (RenderPass.executeBefore a b).mSignalSemaphore = b.mSignalSemaphore ∧
      b.mSignalSemaphore ∈
        (RenderPass.executeBefore (RenderPass.executeBefore a b)
          a).mWaitSemaphores := by
  intro a b
  refine ⟨rfl, ?_, rfl, rfl, ?_⟩
  · simp [RenderPass.executeBefore, RenderPass.executeAfter]
  · simp [RenderPass.executeBefore, RenderPass.executeAfter]

/-- Anatomy of a successful `acquireNext`: the returned slot is the next
ring index, the ring advances to it, the depth is unchanged and the
slot's fence is consumed. -/
theorem acquireNext_some (r : FrameResourceRing) (now : Nat)
    (r1 : FrameResourceRing) (i : Nat)
    (h : FrameResourceRing.acquireNext r now = some (r1, i)) :
    i = (r.current + 1) % r.depth ∧ r1.current = i ∧ r1.depth = r.depth ∧
    r1.fenceSignalTime = r.fenceSignalTime.set i none := by
  simp only [FrameResourceRing.acquireNext] at h
  split at h
  · simp only [Option.some.injEq, Prod.mk.injEq] at h
    obtain ⟨h1, h2⟩ := h
    subst h1
    subst h2
    exact ⟨rfl, rfl, rfl, rfl⟩
  · split at h
    · simp only [Option.some.injEq, Prod.mk.injEq] at h
      obtain ⟨h1, h2⟩ := h
      subst h1
      subst h2
      exact ⟨rfl, rfl, rfl, rfl⟩
    · exact absurd h (by simp)

/-- A chain of successful acquisitions advances the ring index by its
length, modulo the ring depth. -/
theorem acquireSeq_some_current :
    ∀ (ts : List Nat) (r r2 : FrameResourceRing) (slots : List Nat),
      ts ≠ [] → acquireSeq r ts = some (r2, slots) →
      r2.current = (r.current + ts.length) % r.depth ∧ r2.depth = r.depth := by
  intro ts
  induction ts with
  | nil => intro r r2 slots h; exact absurd rfl h
  | cons now rest ih =>
    intro r r2 slots _ h
    rw [acquireSeq] at h
    cases ha : FrameResourceRing.acquireNext r now with
    | none => rw [ha] at h; exact absurd h (by simp)
    | some pr =>
      obtain ⟨r1, i⟩ := pr
      rw [ha] at h
      simp only [Option.some_bind] at h
      obtain ⟨hi, hcur, hdep, _⟩ := acquireNext_some r now r1 i ha
      cases rest with
      | nil =>
        simp only [acquireSeq, Option.map_some', Option.some.injEq,
          Prod.mk.injEq] at h
        obtain ⟨h1, _⟩ := h
        subst h1
        rw [hcur, hi, hdep]
        exact ⟨rfl, rfl⟩
      | cons now2 rest2 =>
        cases hs : acquireSeq r1 (now2 :: rest2) with
        | none => rw [hs] at h; exact absurd h (by simp)
        | some pr2 =>
          obtain ⟨r2x, slots2⟩ := pr2
          rw [hs] at h
          simp only [Option.map_some', Option.some.injEq, Prod.mk.injEq] at h
          obtain ⟨h1, _⟩ := h
          subst h1
          obtain ⟨hc2, hd2⟩ := ih r1 r2x slots2 (by simp) hs
          refine ⟨?_, by rw [hd2, hdep]⟩
          rw [hc2, hdep, hcur, hi, Nat.mod_add_mod]
          congr 1
          simp [List.length]
          omega

/-- Claim C3: `acquireNext` advances the ring index modulo the ring depth
and host-waits on the target slot's fence: while that fence is unsignaled
the call blocks, and a slot is only ever returned once its fence has
signaled.  A chain of `k` acquisitions advances the index by `k` mod the
depth, so with depth `N` the `(N+1)`-th acquisition returns to the first
slot; the concrete depth-2 scenario shows it blocking until that slot's
fence signals. -/
theorem claim_C3 :
    (∀ (r : FrameResourceRing) (now : Nat) (r1 : FrameResourceRing) (i : Nat),
        FrameResourceRing.acquireNext r now = some (r1, i) →
          i = (r.current + 1) % r.depth ∧ r1.current = i ∧
          r1.depth = r.depth) ∧
    (∀ (r : FrameResourceRing) (now t : Nat),
        r.fenceSignalTime.getD ((r.current + 1) % r.depth) none = some t →
        now < t → FrameResourceRing.acquireNext r now = none) ∧
    (∀ (r : FrameResourceRing) (now : Nat) (r1 : FrameResourceRing) (i : Nat),
        FrameResourceRing.acquireNext r now = some (r1, i) →
          r.fenceSignalTime.getD i none = none ∨
          ∃ t, r.fenceSignalTime.getD i none = some t ∧ t ≤ now) ∧
    (∀ (ts : List Nat) (r r2 : FrameResourceRing) (slots : List Nat),
        ts ≠ [] → acquireSeq r ts = some (r2, slots) →
        r2.current = (r.current + ts.length) % r.depth) ∧
    (FrameResourceRing.acquireNext ringScenario0 0 = some (ringScenario1, 0) ∧
     FrameResourceRing.submitSlot ringScenario1 10 = ringScenario1s ∧
     FrameResourceRing.acquireNext ringScenario1s 1 = some (ringScenario2, 1) ∧
     FrameResourceRing.submitSlot ringScenario2 20 = ringScenario2s ∧
     FrameResourceRing.acquireNext ringScenario2s 5 = none ∧
     (FrameResourceRing.acquireNext ringScenario2s 10).map Prod.snd =
       some 0) := by
  refine ⟨?_, ?_, ?_, ?_, by decide, by decide, by decide, by decide,
    by decide, by decide⟩
  · intro r now r1 i h
    obtain ⟨h1, h2, h3, _⟩ := acquireNext_some r now r1 i h
    exact ⟨h1, h2, h3⟩
  · intro r now t hg hlt
    simp only [FrameResourceRing.acquireNext, hg]
    rw [if_neg (Nat.not_le.mpr hlt)]
  · intro r now r1 i h
    obtain ⟨h1, _, _, _⟩ := acquireNext_some r now r1 i h
    subst h1
    simp only [FrameResourceRing.acquireNext] at h
    split at h
    · left; assumption
    · split at h
      · right; exact ⟨_, by assumption, by assumption⟩
      · exact absurd h (by simp)
  · intro ts r r2 slots hts h
    exact (acquireSeq_some_current ts r r2 slots hts h).1

/-- Closed instance of claim C3: in the depth-2 scenario, the third
acquisition at time 5 blocks because slot 0's fence only signals at
time 10. -/
theorem claim_C3_witness :
    FrameResourceRing.acquireNext ringScenario2s 5 = none :=
  claim_C3.2.1 ringScenario2s 5 10 rfl (by decide)

/-- Allocation never changes the per-pool cap. -/
theorem allocate_cap (p : DescriptorPool) :
    (DescriptorPool.allocateDescriptorSet p).1.mMaxSetsPerPool =
      p.mMaxSetsPerPool := by
  cases h : selectPool p.mMaxSetsPerPool p.mDescriptorPools with
  | none => simp [DescriptorPool.allocateDescriptorSet, h]
  | some i => simp [DescriptorPool.allocateDescriptorSet, h]

/-- Bumping an allocation counter leaves the backing-pool handles alone. -/
theorem bumpAt_map_mPool :
    ∀ (l : List PoolInfo) (i : Nat),
      (bumpAt l i).map PoolInfo.mPool = l.map PoolInfo.mPool := by
  intro l
  induction l with
  | nil => intro i; cases i <;> rfl
  | cons hd rest ih =>
    intro i
    cases i with
    | zero => rfl
    | succ j => simp [bumpAt, ih j]

/-- `selectPool` only returns records strictly below the cap. -/
theorem selectPool_lt (cap : Nat) :
    ∀ (l : List PoolInfo) (i : Nat), selectPool cap l = some i →
      ∃ r, l.get? i = some r ∧ r.mAllocationCount < cap := by
  intro l
  induction l with
  | nil => intro i h; simp [selectPool] at h
  | cons hd rest ih =>
    intro i h
    rw [selectPool] at h
    cases hs : selectPool cap rest with
    | some j =>
      rw [hs] at h
      simp only [Option.some.injEq] at h
      subst h
      obtain ⟨r, hr, hlt⟩ := ih j hs
      exact ⟨r, by simpa using hr, hlt⟩
    | none =>
      rw [hs] at h
      by_cases hc : hd.mAllocationCount < cap
      · rw [if_pos hc] at h
        simp only [Option.some.injEq] at h
        subst h
        exact ⟨hd, rfl, hc⟩
      · rw [if_neg hc] at h
        cases h

/-- Bumping a record that is strictly below the cap keeps every counter at
or below the cap. -/
theorem bumpAt_counts (cap : Nat) :
    ∀ (l : List PoolInfo) (i : Nat) (r : PoolInfo),
      (∀ x ∈ l, x.mAllocationCount ≤ cap) →
      l.get? i = some r → r.mAllocationCount < cap →
      ∀ x ∈ bumpAt l i, x.mAllocationCount ≤ cap := by
  intro l
  induction l with
  | nil => intro i r _ hr; simp at hr
  | cons hd rest ih =>
    intro i r h hr hlt
    cases i with
    | zero =>
      simp only [List.get?_cons_zero, Option.some.injEq] at hr
      subst hr
      intro x hx
      rw [bumpAt] at hx
      rcases List.mem_cons.mp hx with hx | hx
      · subst hx; exact hlt
      · exact h x (List.mem_cons_of_mem hd hx)
    | succ j =>
      simp only [List.get?_cons_succ] at hr
      intro x hx
      rw [bumpAt] at hx
      rcases List.mem_cons.mp hx with hx | hx
      · rw [hx]; exact h hd (List.mem_cons_self hd rest)
      · exact ih j r (fun y hy => h y (List.mem_cons_of_mem hd hy)) hr hlt
          x hx

/-- One allocation keeps every allocation counter at or below the cap
(provided the cap is positive, as the constant 64 is). -/
theorem allocate_counts (p : DescriptorPool)
    (hcap : 1 ≤ p.mMaxSetsPerPool)
    (h : ∀ x ∈ p.mDescriptorPools, x.mAllocationCount ≤ p.mMaxSetsPerPool) :
    ∀ x ∈ (DescriptorPool.allocateDescriptorSet p).1.mDescriptorPools,
      x.mAllocationCount ≤ p.mMaxSetsPerPool := by
  cases hs : selectPool p.mMaxSetsPerPool p.mDescriptorPools with
  | some i =>
    obtain ⟨r, hr, hlt⟩ := selectPool_lt p.mMaxSetsPerPool
      p.mDescriptorPools i hs
    simp only [DescriptorPool.allocateDescriptorSet, hs]
    exact bumpAt_counts p.mMaxSetsPerPool p.mDescriptorPools i r h hr hlt
  | none =>
    simp only [DescriptorPool.allocateDescriptorSet, hs]
    intro x hx
    rcases List.mem_append.mp hx with hx | hx
    · exact h x hx
    · simp only [List.mem_singleton] at hx
      subst hx
      exact hcap

/-- The per-pool bound is an invariant of any number of allocations. -/
theorem allocN_counts :
    ∀ (n : Nat) (p : DescriptorPool), 1 ≤ p.mMaxSetsPerPool →
      (∀ x ∈ p.mDescriptorPools, x.mAllocationCount ≤ p.mMaxSetsPerPool) →
      (allocN n p).mMaxSetsPerPool = p.mMaxSetsPerPool ∧
      ∀ x ∈ (allocN n p).mDescriptorPools,
        x.mAllocationCount ≤ p.mMaxSetsPerPool := by
  intro n
  induction n with
  | zero => intro p _ h; exact ⟨rfl, h⟩
  | succ n ih =>
    intro p hcap h
    have hc := allocate_cap p
    have step := allocate_counts p hcap h
    obtain ⟨ih1, ih2⟩ := ih (DescriptorPool.allocateDescriptorSet p).1
      (by rw [hc]; exact hcap) (by rw [hc]; exact step)
    rw [allocN]
    exact ⟨by rw [ih1, hc], by rw [hc] at ih2; exact ih2⟩

set_option maxRecDepth 10000 in
/-- Claim C2: the allocation counter of every backing pool stays at or
below the cap of 64; `allocateDescriptorSet` allocates from a record whose
counter is below the cap and otherwise creates and appends a new backing
pool; backing pools are never removed; and after 65 allocations from a
fresh cache at least two backing pools exist. -/
theorem claim_C2 :
    (∀ n : Nat, ∀ x ∈ (allocN n freshDescriptorPool).mDescriptorPools,
        x.mAllocationCount ≤ 64) ∧
    (∀ p : DescriptorPool, 1 ≤ p.mMaxSetsPerPool →
        (∀ x ∈ p.mDescriptorPools, x.mAllocationCount ≤ p.mMaxSetsPerPool) →
        ∀ x ∈ (DescriptorPool.allocateDescriptorSet p).1.mDescriptorPools,
          x.mAllocationCount ≤ p.mMaxSetsPerPool) ∧
    (∀ p : DescriptorPool, handlesExtend (poolHandles p)
        (poolHandles (DescriptorPool.allocateDescriptorSet p).1)) ∧
    (∀ (p : DescriptorPool) (i : Nat),
        selectPool p.mMaxSetsPerPool p.mDescriptorPools = some i →
          ∃ r, p.mDescriptorPools.get? i = some r ∧
            r.mAllocationCount < p.mMaxSetsPerPool ∧
            (DescriptorPool.allocateDescriptorSet p).1.mDescriptorPools =
              bumpAt p.mDescriptorPools i) ∧
    (∀ p : DescriptorPool,
        selectPool p.mMaxSetsPerPool p.mDescriptorPools = none →
          (DescriptorPool.allocateDescriptorSet p).1.mDescriptorPools =
            p.mDescriptorPools ++
              [{ mPool := p.nextPoolHandle, mAllocationCount := 1 }]) ∧
    2 ≤ (allocN 65 freshDescriptorPool).mDescriptorPools.length := by
  refine ⟨?_, allocate_counts, ?_, ?_, ?_, by decide⟩
  · intro n
    exact (allocN_counts n freshDescriptorPool (by decide)
      (by intro x hx; simp [freshDescriptorPool] at hx)).2
  · intro p
    cases hs : selectPool p.mMaxSetsPerPool p.mDescriptorPools with
    | some i =>
      refine ⟨[], ?_⟩
      simp [DescriptorPool.allocateDescriptorSet, hs, poolHandles,
        bumpAt_map_mPool]
    | none =>
      refine ⟨[p.nextPoolHandle], ?_⟩
      simp [DescriptorPool.allocateDescriptorSet, hs, poolHandles]
  · intro p i hs
    obtain ⟨r, hr, hlt⟩ := selectPool_lt p.mMaxSetsPerPool
      p.mDescriptorPools i hs
    refine ⟨r, hr, hlt, ?_⟩
    simp [DescriptorPool.allocateDescriptorSet, hs]
  · intro p hs
    simp [DescriptorPool.allocateDescriptorSet, hs]

/-- Closed instance of claim C2: on a fresh cache no backing pool exists
yet, so the first allocation appends one holding one set. -/
theorem claim_C2_witness :
    (DescriptorPool.allocateDescriptorSet
        freshDescriptorPool).1.mDescriptorPools =
      [] ++ [{ mPool := 0, mAllocationCount := 1 }] :=
  claim_C2.2.2.2.2.1 freshDescriptorPool rfl

/-- Field-wise equality of `GraphicsState` values is equality. -/
theorem fieldwiseEq_iff (a b : GraphicsState) :
    GraphicsState.fieldwiseEq a b = true ↔ a = b := by
  cases a
  cases b
  simp only [GraphicsState.fieldwiseEq, Bool.and_eq_true, beq_iff_eq,
    GraphicsState.mk.injEq]
  tauto

/-- A key missed by `cacheLookup` is absent from the cache. -/
theorem cacheLookup_none (key : GraphicsState × Nat) :
    ∀ l, cacheLookup key l = none → key ∉ l.map Prod.fst := by
  intro l
  induction l with
  | nil => intro _; simp
  | cons e rest ih =>
    obtain ⟨k, hdl⟩ := e
    intro h
    rw [cacheLookup] at h
    by_cases hk : k = key
    · rw [if_pos hk] at h
      cases h
    · rw [if_neg hk] at h
      simp only [List.map_cons, List.mem_cons]
      intro hc
      rcases hc with hc | hc
      · exact hk hc.symm
      · exact ih h hc

/-- `createPipeline` preserves cache well-formedness: keys stay unique and
each compilation accounts for exactly one entry. -/
theorem createPipeline_wf (c : PipelineFactory) (st : GraphicsState)
    (sp : Nat) (h : cacheWellFormed c) :
    cacheWellFormed (RenderPass.createPipeline c st sp).1 := by
  cases hl : cacheLookup (st, sp) c.entries with
  | some hdl => simpa [RenderPass.createPipeline, hl] using h
  | none =>
    obtain ⟨h1, h2⟩ := h
    simp only [RenderPass.createPipeline, hl]
    constructor
    · simp only [cacheKeys, List.map_cons]
      exact List.nodup_cons.mpr ⟨cacheLookup_none _ _ hl, h1⟩
    · simp [h2]

/-- Any request sequence leaves the cache well-formed. -/
theorem runCreatePipelines_wf :
    ∀ (reqs : List (GraphicsState × Nat)) (c : PipelineFactory),
      cacheWellFormed c → cacheWellFormed (runCreatePipelines reqs c) := by
  intro reqs
  induction reqs with
  | nil => intro c h; exact h
  | cons rq rest ih =>
    intro c h
    obtain ⟨st, sp⟩ := rq
    rw [runCreatePipelines]
    exact ih _ (createPipeline_wf c st sp h)

/-- Claim C1: field-wise equal `GraphicsState` values resolve to the same
cached pipeline for the same sub-pass; a key already in the cache is
served from the cache without compiling; and over any request sequence
the cache holds at most one entry per distinct (state, subPass) key, with
every compilation accounted for by exactly one entry — at most one
pipeline is compiled per key over the cache's lifetime. -/
theorem claim_C1 :
    (∀ (a b : GraphicsState) (s : Nat) (c : PipelineFactory),
        GraphicsState.fieldwiseEq a b = true →
        RenderPass.createPipeline c a s = RenderPass.createPipeline c b s) ∧
    (∀ (c : PipelineFactory) (st : GraphicsState) (s handle : Nat),
        cacheLookup (st, s) c.entries = some handle →
        RenderPass.createPipeline c st s = (c, handle)) ∧
    (∀ reqs : List (GraphicsState × Nat),
        cacheWellFormed (runCreatePipelines reqs emptyPipelineFactory)) := by
  refine ⟨?_, ?_, ?_⟩
  · intro a b s c h
    rw [(fieldwiseEq_iff a b).mp h]
  · intro c st s handle h
    simp [RenderPass.createPipeline, h]
  · intro reqs
    exact runCreatePipelines_wf reqs emptyPipelineFactory
      ⟨List.nodup_nil, rfl⟩

/-- Closed instance of claim C1: a cache holding a pipeline for a concrete
state serves that handle back without compiling a new one. -/
theorem claim_C1_witness :
    RenderPass.createPipeline
        { entries := [((⟨1, 2, [3], [4], [5], [6], [7], 8, [true]⟩, 0), 5)]
          compileCount := 1 }
        ⟨1, 2, [3], [4], [5], [6], [7], 8, [true]⟩ 0 =
      ({ entries := [((⟨1, 2, [3], [4], [5], [6], [7], 8, [true]⟩, 0), 5)]
         compileCount := 1 }, 5) :=
  claim_C1.2.1 _ ⟨1, 2, [3], [4], [5], [6], [7], 8, [true]⟩ 0 5 (by decide)

end Illusion
